import Mathlib

/-!
Shallow embedding of `src/marc2bib/tagfuncs.py`: MARC facet extractors and
the author-name normalizer.  Records and fields follow the external
field-accessor interface described in the specification (a field is an
ordered mapping from single-character subfield keys to strings, carrying a
tag and two indicator characters; a record is a list of fields in document
order).  Python exceptions are modelled with `Except Unit`: per the spec,
indexed access to an absent subfield is an out-of-contract lookup failure.
-/

namespace Marc2bib

/-- Python whitespace characters as stripped by `str.strip()` (the ASCII
whitespace actually occurring in the data handled here). -/
def isPySpace (c : Char) : Bool :=
  c = ' ' ∨ c = '\t' ∨ c = '\n' ∨ c = '\r' ∨ c.toNat = 11 ∨ c.toNat = 12

/-- Strip leading and trailing whitespace from a character list. -/
def stripChars (cs : List Char) : List Char :=
  ((cs.dropWhile isPySpace).reverse.dropWhile isPySpace).reverse

/-- Python `str.strip()` with no argument. -/
def pyStrip (s : String) : String :=
  String.mk (stripChars s.data)

/-- Python `str.rstrip(set)`: drop trailing characters belonging to `set`. -/
def rstripSet (set : List Char) (s : String) : String :=
  String.mk ((s.data.reverse.dropWhile (fun c => set.contains c)).reverse)

/-- Python `str.replace(c, "")` for a single-character pattern: remove every
occurrence of the character. -/
def removeAllChar (c : Char) (s : String) : String :=
  String.mk (s.data.filter (fun d => d != c))

/-- Lower-case one character.  Python `str.lower` restricted to the ASCII
and Russian Cyrillic alphabets occurring in the source's vocabularies. -/
def pyLowerChar (c : Char) : Char :=
  if 'A' ≤ c ∧ c ≤ 'Z' then Char.ofNat (c.toNat + 32)
  else if 0x410 ≤ c.toNat ∧ c.toNat ≤ 0x42F then Char.ofNat (c.toNat + 0x20)
  else if c.toNat = 0x401 then Char.ofNat 0x451
  else c

/-- Python `str.lower()` (character-wise on the alphabets in play). -/
def pyLower (s : String) : String :=
  String.mk (s.data.map pyLowerChar)

/-- Python `str.casefold()`; it agrees with `str.lower()` on the ASCII and
Cyrillic letters handled by this module. -/
def pyCasefold (s : String) : String := pyLower s

/-- Python `str.endswith('.')`. -/
def endsWithDot (s : String) : Bool :=
  s.data.getLast? == some '.'

/-- Core of Python `str.split(sep)` for a one-character separator: split at
every occurrence, keeping empty pieces, never returning an empty list. -/
def splitCharAux (sep : Char) (acc : List Char) : List Char → List (List Char)
  | [] => [acc.reverse]
  | c :: rest =>
    if c == sep then acc.reverse :: splitCharAux sep [] rest
    else splitCharAux sep (c :: acc) rest

/-- Python `str.split(sep)` for a one-character separator. -/
def pySplitChar (sep : Char) (s : String) : List String :=
  (splitCharAux sep [] s.data).map String.mk

/-- Python `str.split(", ")` (the only multi-character separator used by the
source, in `get_editor`). -/
def splitCommaSpace : List Char → List (List Char)
  | [] => [[]]
  | ',' :: ' ' :: rest => [] :: splitCommaSpace rest
  | c :: rest =>
    match splitCommaSpace rest with
    | [] => [[c]]
    | h :: t => (c :: h) :: t

/-- Python `sep.join(strings)`. -/
def joinSep (sep : String) : List String → String
  | [] => ""
  | [x] => x
  | x :: y :: rest => x ++ sep ++ joinSep sep (y :: rest)

/-- Python `sep.join(s)` where the iterable is itself a string (iterating a
string yields its characters); used by `get_isbn`, where the source discards
the result. -/
def pyStrJoin (sep : String) (s : String) : String :=
  joinSep sep (s.data.map Char.toString)

/-- Python `re.split(r"(?<=[. ])", s)`: cut after every period or space
(zero-width lookbehind), keeping the delimiter with the preceding piece; a
trailing delimiter yields a trailing empty piece. -/
def reSplitAux (acc : List Char) : List Char → List (List Char)
  | [] => [acc.reverse]
  | c :: rest =>
    if c == '.' ∨ c == ' ' then (c :: acc).reverse :: reSplitAux [] rest
    else reSplitAux (c :: acc) rest

/-- Python `re.split(r"(?<=[. ])", s)` on strings. -/
def reSplitAfterDotSpace (s : String) : List String :=
  (reSplitAux [] s.data).map String.mk

/-- Take the longest prefix satisfying `p`, returning it with the rest. -/
def takeRun (p : Char → Bool) : List Char → List Char × List Char
  | [] => ([], [])
  | c :: rest =>
    if p c then
      let (a, b) := takeRun p rest
      (c :: a, b)
    else ([], c :: rest)

/-- First `some` in a list of options (regex alternation order). -/
def firstSome {α : Type} : List (Option α) → Option α
  | [] => none
  | some x :: _ => some x
  | none :: rest => firstSome rest

/-- Python `==` between a `str` and an `int` is always `False`; the source
compares `field.indicator1` (a string) with the integer `0` in `get_series`
and `get_volume`. -/
def pyEqStrInt (_ : String) (_ : Int) : Bool := false

/-- Modelled from the spec: a MARC field of the external field-accessor
boundary — a 3-character tag, two one-character indicators, and an ordered
mapping from one-character subfield keys to string values (lookup is
first-match). -/
structure Field where
  tag : String
  indicator1 : String
  indicator2 : String
  subfields : List (Char × String)
deriving DecidableEq, Repr

/-- First value stored under subfield key `k`, if any. -/
def Field.findSub (f : Field) (k : Char) : Option String :=
  (f.subfields.find? (fun p => p.1 == k)).map Prod.snd

/-- Python `k in field`: subfield presence test. -/
def Field.hasSub (f : Field) (k : Char) : Bool :=
  (f.findSub k).isSome

/-- Modelled from the spec: `field[k]` — indexed subfield access of the
external field-accessor boundary; per the spec's error-handling design,
access to an absent subfield is an out-of-contract lookup failure, modelled
as `Except.error`. -/
def Field.sub (f : Field) (k : Char) : Except Unit String :=
  match f.findSub k with
  | some v => Except.ok v
  | none => Except.error ()

/-- `field[k]` at a program point where `k in field` was already checked:
the checked access returns the stored value (default unreachable). -/
def Field.subV (f : Field) (k : Char) : String :=
  (f.findSub k).getD ""

/-- Modelled from the spec: a MARC record — the fields in document order. -/
structure Record where
  fields : List Field
deriving DecidableEq, Repr

/-- Modelled from the spec: pymarc `record.get_fields(*tags)` — every field
whose tag is among `tags`, in document order. -/
def Record.get_fields (r : Record) (tags : List String) : List Field :=
  r.fields.filter (fun f => tags.contains f.tag)

/-- Modelled from the spec: pymarc `record.get(tag)` — the first field with
the given tag, if any. -/
def Record.get (r : Record) (tag : String) : Option Field :=
  r.fields.find? (fun f => f.tag == tag)

/-- Python list subscript `l[i]` on a list of strings; out-of-range access
is an IndexError, modelled as `Except.error`. -/
def listIdx (l : List String) (i : Nat) : Except Unit String :=
  match l.get? i with
  | some v => Except.ok v
  | none => Except.error ()

/-- `get_address`: first 260/264 field; `field["a"]` is accessed without a
presence check, then brackets are removed and a trailing `": "` stripped. -/
def get_address (r : Record) : Except Unit (Option String) :=
  match r.get_fields ["260", "264"] with
  | [] => Except.ok none
  | field :: _ =>
    match field.sub 'a' with
    | Except.error e => Except.error e
    | Except.ok v =>
      Except.ok (some (rstripSet [':', ' '] (removeAllChar ']' (removeAllChar '[' v))))

/-- Role vocabulary of `get_author` (`role.lower() in [...]`). -/
def authorRoles : List String := ["author", "автор", "авт.", "compiled by", "auth."]

/-- Role vocabulary of `get_editor`; the source literally lists `"Ред."`
(capitalized) although it is compared against `role.lower()`. -/
def editorRoles : List String :=
  ["editor", "редактор", "ed.", "научный редактор", "Ред."]

/-- Structured-field pass of `get_author`, name selection: subfield `a` (or
`""`), blanked when a role subfield `e` is present and not author-like. -/
def keptAuthorName (field : Field) : String :=
  let name := if field.hasSub 'a' then field.subV 'a' else ""
  if field.hasSub 'e' then
    if authorRoles.contains (pyLower (field.subV 'e')) then name else ""
  else name

/-- Structured-field pass of `get_author`, comma handling: the kept name is
split at every comma; when more than one part results, the name is rebuilt
from `parts[0]` and `parts[1]`, inverted when `indicator1 == "0"`. -/
def formatAuthorName (field : Field) (name : String) : String :=
  let parts := pySplitChar ',' name
  if parts.length > 1 then
    if field.indicator1 == "0" then
      pyStrip (parts.getD 1 "") ++ ", " ++ pyStrip (parts.getD 0 "")
    else
      pyStrip (parts.getD 0 "") ++ ", " ++ pyStrip (parts.getD 1 "")
  else name

/-- Structured-field pass of `get_author` over the 100/400/600/700/800
fields: kept names are formatted and accumulated in order. -/
def structuredAuthors (fields : List Field) : List String :=
  fields.foldl
    (fun acc field =>
      let name := keptAuthorName field
      if name = "" then acc else acc ++ [formatAuthorName field name])
    []

/-- State of the `parse_authors_nlp` token loop. -/
structure NState where
  out : List String
  surname : String
  initials : String
deriving DecidableEq, Repr

/-- Pending-surname flush of `parse_authors_nlp`: re-split the pending text
after periods and spaces; if that yields both initial-like and surname-like
parts, emit a recombined entry; if it yields several parts but not both
classes, emit nothing; otherwise emit the pending text as is. -/
def flushSurname (out : List String) (surname : String) : List String :=
  let parts := reSplitAfterDotSpace surname
  if parts.length > 1 then
    let p := parts.foldl
      (fun (q : String × String) part =>
        if endsWithDot (pyStrip part) then (q.1 ++ " " ++ pyStrip part, q.2)
        else (q.1, pyStrip part))
      ("", "")
    if p.1 ≠ "" ∧ p.2 ≠ "" then out ++ [p.2 ++ ", " ++ pyStrip p.1] else out
  else out ++ [surname]

/-- One token of the `parse_authors_nlp` loop: pure punctuation is skipped;
otherwise a completed (surname, initials) pair is flushed first, then the
token is classified as an initial (trailing period) or as a new surname
candidate (flushing any pending surname). -/
def nstep (st : NState) (tokText : String) : NState :=
  let t := pyStrip tokText
  if t = "," ∨ t = "." then st
  else
    let st :=
      if st.initials ≠ "" ∧ st.surname ≠ "" then
        { out := st.out ++ [st.surname ++ ", " ++ pyStrip st.initials],
          surname := "", initials := "" }
      else st
    if endsWithDot t then { st with initials := st.initials ++ " " ++ t }
    else
      let out := if st.surname ≠ "" then flushSurname st.out st.surname else st.out
      { out := out, surname := t, initials := st.initials }

/-- Token-stream state machine of `parse_authors_nlp`: fold the tokens, then
flush the final state (a completed pair directly, a bare pending surname via
the re-split rule). -/
def formatAuthors (tokens : List String) : List String :=
  let st := tokens.foldl nstep ⟨[], "", ""⟩
  if st.surname ≠ "" then
    if st.initials ≠ "" then st.out ++ [st.surname ++ ", " ++ pyStrip st.initials]
    else flushSurname st.out st.surname
  else st.out

/-- `parse_authors_nlp`: the spacy model load and tokenization are the
external Name Tokenizer boundary, modelled as one fallible call producing
the ordered token texts; the token loop itself is `formatAuthors`. -/
def parse_authors_nlp (tokenize : String → Except Unit (List String))
    (input : String) : Except Unit (List String) :=
  match tokenize input with
  | Except.ok toks => Except.ok (formatAuthors toks)
  | Except.error e => Except.error e

/-- First element of Python `s.split(' ')`. -/
def firstSpaceTok (s : String) : String :=
  (pySplitChar ' ' s).headD ""

/-- Freeform-name dedup loop of `get_author`: a parsed name is appended only
when its first space-delimited token, casefolded, differs from that of every
name accumulated so far. -/
def appendParsed (authors parsed : List String) : List String :=
  parsed.foldl
    (fun acc author1 =>
      let tok := firstSpaceTok author1
      let fFind := acc.any (fun a => pyCasefold tok == pyCasefold (firstSpaceTok a))
      if fFind then acc else acc ++ [author1])
    authors

/-- Freeform step of `get_author`: when field 245 carries subfield `c`, its
value is parsed and the results deduplicated into the author list; the
tokenizer failure propagates. -/
def freeformStep (tokenize : String → Except Unit (List String)) (r : Record)
    (authors : List String) : Except Unit (List String) :=
  match r.get "245" with
  | some field =>
    if field.hasSub 'c' then
      match parse_authors_nlp tokenize (field.subV 'c') with
      | Except.ok authors1 => Except.ok (appendParsed authors authors1)
      | Except.error e => Except.error e
    else Except.ok authors
  | none => Except.ok authors

/-- `get_author`: structured 100/400/600/700/800 names, then the freeform
245 `c` parse with first-token dedup, joined with `" and "`. -/
def get_author (tokenize : String → Except Unit (List String)) (r : Record) :
    Except Unit (Option String) :=
  match freeformStep tokenize r
      (structuredAuthors (r.get_fields ["100", "400", "600", "700", "800"])) with
  | Except.ok authors =>
    Except.ok (if authors.isEmpty then none else some (joinSep " and " authors))
  | Except.error e => Except.error e

/-- `get_edition`: first 250 field; subfields `a` and `b` (both gated)
joined with a space and stripped. -/
def get_edition (r : Record) : Option String :=
  match r.get_fields ["250"] with
  | [] => none
  | field :: _ =>
    let edition := if field.hasSub 'a' then field.subV 'a' else ""
    let info := if field.hasSub 'b' then field.subV 'b' else ""
    some (pyStrip (edition ++ " " ++ info))

/-- One field of the `get_editor` loop: a field whose role subfield `e`
matches the editor vocabulary contributes `field["a"]` (unchecked access);
when `indicator1 == "0"` the name is re-ordered via `split(", ")`, whose
`parts[1]` access fails when no `", "` occurs. -/
def editorFold (eds : Except Unit (List String)) (field : Field) :
    Except Unit (List String) :=
  match eds with
  | Except.error e => Except.error e
  | Except.ok eds =>
    if field.hasSub 'e' then
      if editorRoles.contains (pyLower (field.subV 'e')) then
        match field.sub 'a' with
        | Except.error e => Except.error e
        | Except.ok name =>
          if field.indicator1 == "0" then
            let parts := (splitCommaSpace name.data).map String.mk
            match listIdx parts 1, listIdx parts 0 with
            | Except.ok p1, Except.ok p0 => Except.ok (eds ++ [p1 ++ ", " ++ p0])
            | _, _ => Except.error ()
          else Except.ok (eds ++ [name])
      else Except.ok eds
    else Except.ok eds

/-- `get_editor`: names of 100/400/600/700/800 fields whose role subfield
matches the editor vocabulary, joined with `" and "` (empty string when none). -/
def get_editor (r : Record) : Except Unit (Option String) :=
  match (r.get_fields ["100", "400", "600", "700", "800"]).foldl editorFold
      (Except.ok []) with
  | Except.ok editors =>
    Except.ok (some (if editors.isEmpty then "" else joinSep " and " editors))
  | Except.error e => Except.error e

/-- `get_title`: first field of `get_fields("245", "")`; subfields `a` and
`b` (both gated) joined with a space and stripped. -/
def get_title (r : Record) : Option String :=
  match r.get_fields ["245", ""] with
  | [] => none
  | field :: _ =>
    let title := if field.hasSub 'a' then field.subV 'a' else ""
    let subtitle := if field.hasSub 'b' then field.subV 'b' else ""
    some (pyStrip (title ++ " " ++ subtitle))

/-- Python `"a" in record.get_fields("520")`: membership of a string among
Field objects of a list — always `False` (a `str` never equals a `Field`). -/
def strInFieldList (_ : String) (_ : List Field) : Bool := false

/-- Python `record.get_fields("520")["a"]`: subscripting a list with a
string is a TypeError; unreachable in the source because its guard
`strInFieldList` is always false. -/
def fieldListIdxStr (_ : List Field) (_ : String) : Except Unit String :=
  Except.error ()

/-- `get_summary`: the source stores `record.get_fields("520")` (a list) in
`field_520` and then treats it like a field: `"a" in field_520` and
`"b" in field_520` test membership in the field list and never hold, so
whenever a 520 field exists the result is `" ".strip() = ""`; with no 520
field the result is also `""`. -/
def get_summary (r : Record) : Except Unit (Option String) :=
  let field520 := r.get_fields ["520"]
  if field520.isEmpty then Except.ok (some "")
  else
    match (if strInFieldList "a" field520 then fieldListIdxStr field520 "a"
           else Except.ok "") with
    | Except.error e => Except.error e
    | Except.ok annot =>
      match (if strInFieldList "b" field520 then fieldListIdxStr field520 "b"
             else Except.ok "") with
      | Except.error e => Except.error e
      | Except.ok info => Except.ok (some (pyStrip (annot ++ " " ++ info)))

/-- Word character for the regex `\b` boundary: ASCII alphanumerics, the
underscore, and the Cyrillic block occurring in the data. -/
def isWordChar (c : Char) : Bool :=
  c.isAlphanum ∨ c = '_' ∨ (0x400 ≤ c.toNat ∧ c.toNat ≤ 0x4FF)

/-- Characters of the `[mdclxvi]` class of the volume regex (the pattern is
compiled without `re.IGNORECASE`: lower case only). -/
def isRomanLower (c : Char) : Bool :=
  c = 'm' ∨ c = 'd' ∨ c = 'c' ∨ c = 'l' ∨ c = 'x' ∨ c = 'v' ∨ c = 'i'

/-- First alternative of the volume regex, `^\[?([mdclxvi]+)\]?,`, attempted
at absolute index `i` of the input: the `^` anchor matches only at the true
start of the string, regardless of the search's starting position. -/
def volAlt1 (i : Nat) (cs : List Char) : Option String :=
  if i ≠ 0 then none
  else
    let cs := match cs with
      | '[' :: rest => rest
      | _ => cs
    let (run, rest) := takeRun isRomanLower cs
    if run.isEmpty then none
    else
      let rest := match rest with
        | ']' :: rest1 => rest1
        | _ => rest
      match rest with
      | ',' :: _ => some (String.mk run)
      | _ => none

/-- Tail `\s*([0-9]+)` of the volume regex's second alternative: skip
whitespace greedily, then capture a nonempty digit run. -/
def volTail (cs : List Char) : Option String :=
  let cs := cs.dropWhile isPySpace
  let (ds, _) := takeRun Char.isDigit cs
  if ds.isEmpty then none else some (String.mk ds)

/-- Second alternative of the volume regex,
`\b(?:[тv]\.?|Tom|Volume|Vol\.?)\s*([0-9]+)`, attempted at one position:
the `\b` boundary requires the preceding character (if any) to be a
non-word character; the abbreviation options are tried in pattern order,
greedy on their optional periods, each followed by the digit tail. -/
def volAlt2 (prevWord : Bool) (cs : List Char) : Option String :=
  if prevWord then none
  else
    let cands : List (List Char) :=
      (match cs with
       | c :: rest =>
         if c = 'т' ∨ c = 'v' then
           match rest with
           | '.' :: rest2 => [rest2, rest]
           | _ => [rest]
         else []
       | [] => []) ++
      (if ['T', 'o', 'm'].isPrefixOf cs then [cs.drop 3] else []) ++
      (if ['V', 'o', 'l', 'u', 'm', 'e'].isPrefixOf cs then [cs.drop 6] else []) ++
      (if ['V', 'o', 'l', '.'].isPrefixOf cs then [cs.drop 4, cs.drop 3]
       else if ['V', 'o', 'l'].isPrefixOf cs then [cs.drop 3] else [])
    firstSome (cands.map volTail)

/-- Scan of the compiled volume pattern: positions are tried left to right
from the search's starting point, the two alternatives in pattern order at
each position; `i` is the absolute index and `prevWord` classifies the
previous character for the `\b` boundary. -/
def volSearchAux (prevWord : Bool) (i : Nat) : List Char → Option String
  | [] => none
  | c :: rest =>
    match volAlt1 i (c :: rest) with
    | some g => some g
    | none =>
      match volAlt2 prevWord (c :: rest) with
      | some g => some g
      | none => volSearchAux (isWordChar c) (i + 1) rest

/-- `volume_number_pa.search(s, pos)`: the source passes `re.IGNORECASE`
(whose value is 2) in the `pos` slot of `Pattern.search`, so the scan starts
at index 2 and the pattern keeps its compile-time (case-sensitive) flags;
the result is the captured group of whichever alternative matched
(`m.group(1) or m.group(2)`). -/
def volumeSearch (s : String) (pos : Nat) : Option String :=
  let cs := s.data
  let prevWord :=
    match (cs.take pos).getLast? with
    | some c => isWordChar c
    | none => false
  volSearchAux prevWord pos (cs.drop pos)

/-- `get_volume`: regex capture over the first 300 field's subfield `a`
(searched from position 2, see `volumeSearch`); on failure, fall back to the
first 490 field's subfield `v` — the `indicator1 == 0` early return compares
a string with an integer and never fires — concatenated with the first 830
field's subfield `v`, stripped. -/
def get_volume (r : Record) : Option String :=
  let m := match r.get_fields ["300"] with
    | field :: _ =>
      if field.hasSub 'a' then volumeSearch (field.subV 'a') 2 else none
    | [] => none
  match m with
  | some g => some g
  | none =>
    let p := match r.get_fields ["490"] with
      | field :: _ =>
        if field.hasSub 'a' then
          ((if field.hasSub 'v' then field.subV 'v' else ""),
           pyEqStrInt field.indicator1 0)
        else ("", false)
      | [] => ("", false)
    if p.2 then some p.1
    else
      let volume1 := match r.get_fields ["830"] with
        | field :: _ => if field.hasSub 'v' then field.subV 'v' else ""
        | [] => ""
      some (pyStrip (p.1 ++ " " ++ volume1))

/-- Trailing `\]?\s?[pс]\.?` of the pages regex (optional bracket, optional
single whitespace, then `p` or the Cyrillic `с`); the final optional period
constrains nothing. -/
def pagesTailOk (cs : List Char) : Bool :=
  let cs := match cs with
    | ']' :: rest => rest
    | _ => cs
  let cs := match cs with
    | c :: rest => if isPySpace c then rest else c :: rest
    | [] => []
  match cs with
  | c :: _ => c = 'p' ∨ c = 'с'
  | [] => false

/-- One position of the pages regex `\[?(([0-9]+-)?[0-9]+)\]?\s?[pс]\.?`:
optional opening bracket, then the captured group — greedily a digit run, a
dash, and a second digit run, or else a single digit run — followed by the
tail check. -/
def pagesAt (cs : List Char) : Option String :=
  let cs := match cs with
    | '[' :: rest => rest
    | _ => cs
  let (d1, rest1) := takeRun Char.isDigit cs
  if d1.isEmpty then none
  else
    let withDash : Option String :=
      match rest1 with
      | '-' :: rest2 =>
        let (d2, rest3) := takeRun Char.isDigit rest2
        if d2.isEmpty then none
        else if pagesTailOk rest3 then some (String.mk (d1 ++ '-' :: d2)) else none
      | _ => none
    match withDash with
    | some g => some g
    | none => if pagesTailOk rest1 then some (String.mk d1) else none

/-- `re.search` scan of the pages regex: leftmost match wins. -/
def pagesSearch : List Char → Option String
  | [] => none
  | c :: rest =>
    match pagesAt (c :: rest) with
    | some g => some g
    | none => pagesSearch rest

/-- `get_pages`: regex capture over the first 300 field's `field["a"]`,
accessed without a presence check; no 300 field yields `""`, a failed search
yields `None`. -/
def get_pages (r : Record) : Except Unit (Option String) :=
  match r.get_fields ["300"] with
  | field :: _ =>
    match field.sub 'a' with
    | Except.error e => Except.error e
    | Except.ok a => Except.ok (pagesSearch a.data)
  | [] => Except.ok (some "")

/-- `get_series`: the first 490 field's subfield `a` (gated), concatenated
with the first 830 field's subfield `a`, stripped; the `indicator1 == 0`
early return compares a string with an integer and never fires. -/
def get_series (r : Record) : Option String :=
  let p := match r.get_fields ["490"] with
    | field :: _ =>
      ((if field.hasSub 'a' then field.subV 'a' else ""),
       pyEqStrInt field.indicator1 0)
    | [] => ("", false)
  if p.2 then some p.1
  else
    let serie1 := match r.get_fields ["830"] with
      | field :: _ => if field.hasSub 'a' then field.subV 'a' else ""
      | [] => ""
    some (pyStrip (p.1 ++ " " ++ serie1))

/-- One 020 field of the `get_isbn` loop: subfield `a` (stripped)
overwrites the result; the invalid-ISBN branch computes `isbns.join(...)`
and discards it (a no-op, kept here as the unused binding). -/
def isbnStep (isbns : String) (field : Field) : String :=
  let isbns1 := if field.hasSub 'a' then pyStrip (field.subV 'a') else isbns
  let _ := if field.hasSub 'z' then
      pyStrJoin isbns1 ("Invalid: " ++ pyStrip (field.subV 'z'))
    else ""
  isbns1

/-- `get_isbn`: fold `isbnStep` over all 020 fields, starting from `""`. -/
def get_isbn (r : Record) : String :=
  (r.get_fields ["020"]).foldl isbnStep ""

/-- Replace every value stored under subfield key `z` of a field using `g`,
leaving all other subfields and attributes unchanged. -/
def mapZField (g : String → String) (f : Field) : Field :=
  { f with subfields := f.subfields.map (fun p => if p.1 == 'z' then ('z', g p.2) else p) }

/-- Replace every `z` subfield value of every field of a record using `g`. -/
def mapZValues (g : String → String) (r : Record) : Record :=
  ⟨r.fields.map (mapZField g)⟩

/-- Text before the first comma of a string (for the amended C2 statement). -/
def segBeforeComma (s : String) : String :=
  String.mk (s.data.takeWhile (fun c => c != ','))

/-- Text strictly between the first and second commas of a string (to its
end when there is no second comma). -/
def segAfterComma (s : String) : String :=
  String.mk ((((s.data.dropWhile (fun c => c != ','))).drop 1).takeWhile (fun c => c != ','))

/-- The freeform-dedup loop as worded by the spec: compare the first
whitespace-delimited token of each parsed name, case-insensitively, against
the first token of every name already in the author list, and append only
when no match is found. -/
def specAppend (authors parsed : List String) : List String :=
  parsed.foldl
    (fun acc p =>
      if ∃ a ∈ acc, pyCasefold (firstSpaceTok p) = pyCasefold (firstSpaceTok a)
      then acc else acc ++ [p])
    authors

/-- A record with no fields at all. -/
def emptyRec : Record := ⟨[]⟩

/-- A 260 field carrying only subfield `b`: `get_address` reads its `a`. -/
def rec260noA : Record := ⟨[⟨"260", "1", "1", [('b', "x")]⟩]⟩

/-- A 300 field carrying only subfield `b`: `get_pages` reads its `a`. -/
def rec300noA : Record := ⟨[⟨"300", "1", "1", [('b', "x")]⟩]⟩

/-- A 100 field with an editor role but no name subfield `a`. -/
def rec100editorNoA : Record := ⟨[⟨"100", "1", "1", [('e', "editor")]⟩]⟩

/-- A structured author field whose name holds two commas. -/
def c2Field : Field := ⟨"100", "1", "1", [('a', "a, b, c")]⟩

/-- A field with `indicator1 = "0"` for the C2 witness. -/
def c2wField : Field := ⟨"100", "0", "1", []⟩

/-- A tokenizer producing the tokens of the freeform name `"Иванов И.П."`. -/
def c3Tokenize : String → Except Unit (List String) :=
  fun _ => Except.ok ["Иванов", "И.П."]

/-- Structured author `"Иванов, И."` plus a responsibility statement whose
parse produces `"Иванов, И.П."`. -/
def c3Rec : Record :=
  ⟨[⟨"100", "1", "1", [('a', "Иванов, И.")]⟩,
    ⟨"245", "1", "1", [('c', "И.П. Иванов")]⟩]⟩

/-- The Name Tokenizer failing to load (e.g. the missing language model). -/
def failTokenize : String → Except Unit (List String) :=
  fun _ => Except.error ()

/-- The 245 field of `c5Rec`. -/
def c5Field245 : Field := ⟨"245", "1", "1", [('c', "И. Иванов")]⟩

/-- A record with one structured author and a responsibility statement. -/
def c5Rec : Record := ⟨[⟨"100", "1", "1", [('a', "Иванов, И.")]⟩, c5Field245]⟩

/-- The 245 field of `c5wRec`. -/
def c5wField245 : Field := ⟨"245", "1", "1", [('c', "x")]⟩

/-- A record with only a responsibility statement. -/
def c5wRec : Record := ⟨[c5wField245]⟩

/-- A 520 field with both subfields `a` and `b` present. -/
def c6RecSummary : Record := ⟨[⟨"520", "1", "1", [('a', "Text"), ('b', "More")]⟩]⟩

/-- A 245 field with both subfields `a` and `b` present. -/
def c6RecTitle : Record := ⟨[⟨"245", "1", "1", [('a', "Text"), ('b', "More")]⟩]⟩

/-- A 250 field with both subfields `a` and `b` present. -/
def c6RecEdition : Record := ⟨[⟨"250", "1", "1", [('a', "Text"), ('b', "More")]⟩]⟩

/-- Field 300 with `a = "[XII], 450 p."`. -/
def c7RecXII : Record := ⟨[⟨"300", "1", "1", [('a', "[XII], 450 p.")]⟩]⟩

/-- Field 300 with `a = "Vol. 3, 200 p."`. -/
def c7RecVol3 : Record := ⟨[⟨"300", "1", "1", [('a', "Vol. 3, 200 p.")]⟩]⟩

/-- A 490 field with `indicator1 = "0"` together with an 830 field. -/
def c8Rec : Record :=
  ⟨[⟨"490", "0", "1", [('a', "AAA"), ('v', "5")]⟩,
    ⟨"830", "1", "1", [('a', "BBB"), ('v', "7")]⟩]⟩

/-- Two 020 fields carrying only invalid-ISBN subfields `z`. -/
def c9Rec : Record :=
  ⟨[⟨"020", "1", "1", [('z', "0-000")]⟩, ⟨"020", "1", "1", [('z', "1-111")]⟩]⟩

/-- Fields 100 and 700 carrying the same structured author name. -/
def c10Rec : Record :=
  ⟨[⟨"100", "1", "1", [('a', "Иванов, И.")]⟩,
    ⟨"700", "1", "1", [('a', "Иванов, И.")]⟩]⟩

lemma splitCharAux_cons (sep : Char) (acc : List Char) (c : Char) (rest : List Char) :
    splitCharAux sep acc (c :: rest) =
      if c == sep then acc.reverse :: splitCharAux sep [] rest
      else splitCharAux sep (c :: acc) rest := rfl

lemma splitCharAux_ne_nil (sep : Char) :
    ∀ (cs acc : List Char), splitCharAux sep acc cs ≠ [] := by
  intro cs
  induction cs with
  | nil => intro acc; simp [splitCharAux]
  | cons c rest ih =>
    intro acc
    rw [splitCharAux_cons]
    by_cases h : (c == sep) = true
    · rw [if_pos h]; simp
    · rw [if_neg h]; exact ih _

lemma splitCharAux_headD (sep : Char) :
    ∀ (cs acc : List Char),
      (splitCharAux sep acc cs).headD [] =
        acc.reverse ++ cs.takeWhile (fun c => c != sep) := by
  intro cs
  induction cs with
  | nil => intro acc; simp [splitCharAux]
  | cons c rest ih =>
    intro acc
    rw [splitCharAux_cons]
    by_cases h : c = sep
    · subst h
      rw [if_pos (by simp)]
      simp [List.takeWhile_cons]
    · rw [if_neg (by simp [h])]
      rw [ih (c :: acc)]
      have hb : (c != sep) = true := by simp [h]
      simp [List.takeWhile_cons, hb, List.append_assoc]

lemma splitCharAux_contains (sep : Char) :
    ∀ (cs acc : List Char), cs.contains sep = true →
      splitCharAux sep acc cs =
        (acc.reverse ++ cs.takeWhile (fun c => c != sep)) ::
          splitCharAux sep [] ((cs.dropWhile (fun c => c != sep)).drop 1) := by
  intro cs
  induction cs with
  | nil => intro acc h; simp [List.contains] at h
  | cons c rest ih =>
    intro acc h
    rw [splitCharAux_cons]
    by_cases hEq : c = sep
    · subst hEq
      rw [if_pos (by simp)]
      simp [List.takeWhile_cons, List.dropWhile_cons]
    · rw [if_neg (by simp [hEq])]
      have hrest : rest.contains sep = true := by
        rw [List.contains_cons, Bool.or_eq_true] at h
        rcases h with h1 | h1
        · exact absurd (beq_iff_eq.mp h1).symm hEq
        · exact h1
      rw [ih (c :: acc) hrest]
      have hb : (c != sep) = true := by simp [hEq]
      simp [List.takeWhile_cons, List.dropWhile_cons, hb, List.append_assoc]

lemma appendParsed_eq_spec :
    ∀ (parsed authors : List String), appendParsed authors parsed = specAppend authors parsed := by
  intro parsed
  induction parsed with
  | nil => intro authors; rfl
  | cons p rest ih =>
    intro authors
    show List.foldl _ _ (p :: rest) = List.foldl _ _ (p :: rest)
    rw [List.foldl_cons, List.foldl_cons]
    have hcond : ((authors.any fun a =>
        pyCasefold (firstSpaceTok p) == pyCasefold (firstSpaceTok a)) = true) ↔
        ∃ a ∈ authors, pyCasefold (firstSpaceTok p) = pyCasefold (firstSpaceTok a) := by
      simp [List.any_eq_true]
    by_cases hc : ∃ a ∈ authors, pyCasefold (firstSpaceTok p) = pyCasefold (firstSpaceTok a)
    · rw [if_pos (hcond.mpr hc), if_pos hc]
      exact ih authors
    · rw [if_neg (fun hb => hc (hcond.mp hb)), if_neg hc]
      exact ih (authors ++ [p])

lemma findSub_mapZField (g : String → String) (f : Field) (k : Char) (hk : ¬k = 'z') :
    (mapZField g f).findSub k = f.findSub k := by
  obtain ⟨tag, i1, i2, subs⟩ := f
  show ((subs.map fun p => if p.1 == 'z' then ('z', g p.2) else p).find?
      (fun p => p.1 == k)).map Prod.snd = (subs.find? (fun p => p.1 == k)).map Prod.snd
  induction subs with
  | nil => rfl
  | cons p rest ih =>
    simp only [List.map_cons]
    by_cases hz : p.1 = 'z'
    · rw [if_pos (by simp [hz])]
      rw [List.find?_cons_of_neg (p := fun (q : Char × String) => q.1 == k) _ (by
        simp only [beq_iff_eq]; exact fun h => hk h.symm)]
      rw [List.find?_cons_of_neg (p := fun (q : Char × String) => q.1 == k) (a := p) _ (by
        simp only [beq_iff_eq, hz]; exact fun h => hk h.symm)]
      exact ih
    · rw [if_neg (by simp [hz])]
      by_cases hpk : p.1 = k
      · rw [List.find?_cons_of_pos (p := fun (q : Char × String) => q.1 == k) _ (by simp [hpk]),
          List.find?_cons_of_pos (p := fun (q : Char × String) => q.1 == k) _ (by simp [hpk])]
      · rw [List.find?_cons_of_neg (p := fun (q : Char × String) => q.1 == k) (a := p) _ (by simp [hpk]),
          List.find?_cons_of_neg (p := fun (q : Char × String) => q.1 == k) (a := p) _ (by simp [hpk])]
        exact ih

lemma hasSub_mapZField (g : String → String) (f : Field) (k : Char) (hk : ¬k = 'z') :
    (mapZField g f).hasSub k = f.hasSub k := by
  show ((mapZField g f).findSub k).isSome = (f.findSub k).isSome
  rw [findSub_mapZField g f k hk]

lemma subV_mapZField (g : String → String) (f : Field) (k : Char) (hk : ¬k = 'z') :
    (mapZField g f).subV k = f.subV k := by
  show ((mapZField g f).findSub k).getD "" = (f.findSub k).getD ""
  rw [findSub_mapZField g f k hk]

lemma isbnStep_mapZField (g : String → String) (s : String) (f : Field) :
    isbnStep s (mapZField g f) = isbnStep s f := by
  show (if (mapZField g f).hasSub 'a' then pyStrip ((mapZField g f).subV 'a') else s) =
    (if f.hasSub 'a' then pyStrip (f.subV 'a') else s)
  rw [hasSub_mapZField g f 'a' (by decide), subV_mapZField g f 'a' (by decide)]

lemma isbn_foldl_mapZ (g : String → String) :
    ∀ (l : List Field) (s : String),
      (l.map (mapZField g)).foldl isbnStep s = l.foldl isbnStep s := by
  intro l
  induction l with
  | nil => intro s; rfl
  | cons f rest ih =>
    intro s
    rw [List.map_cons, List.foldl_cons, List.foldl_cons, isbnStep_mapZField]
    exact ih _

lemma isbn_foldl_noA :
    ∀ (l : List Field) (s : String), (l.all fun f => !(f.hasSub 'a')) = true →
      l.foldl isbnStep s = s := by
  intro l
  induction l with
  | nil => intro s _; rfl
  | cons f rest ih =>
    intro s h
    rw [List.all_cons, Bool.and_eq_true] at h
    have hf : f.hasSub 'a' = false := by
      cases hfa : f.hasSub 'a'
      · rfl
      · rw [hfa] at h; simp at h
    rw [List.foldl_cons]
    have hstep : isbnStep s f = s := by
      show (if f.hasSub 'a' then pyStrip (f.subV 'a') else s) = s
      rw [hf]; simp
    rw [hstep]
    exact ih s h.2

lemma get_fields_mapZ (g : String → String) (r : Record) (tags : List String) :
    (mapZValues g r).get_fields tags = (r.get_fields tags).map (mapZField g) := by
  show (r.fields.map (mapZField g)).filter _ = (r.fields.filter _).map (mapZField g)
  rw [List.filter_map]
  rfl

lemma structured_foldl_aux :
    ∀ (fields : List Field) (acc : List String),
      fields.foldl
        (fun acc field =>
          let name := keptAuthorName field
          if name = "" then acc else acc ++ [formatAuthorName field name]) acc =
      acc ++ fields.filterMap
        (fun f => if keptAuthorName f = "" then none
                  else some (formatAuthorName f (keptAuthorName f))) := by
  intro fields
  induction fields with
  | nil => intro acc; simp
  | cons f rest ih =>
    intro acc
    by_cases h : keptAuthorName f = ""
    · simp only [List.foldl_cons, List.filterMap_cons, h, if_pos rfl]
      exact ih acc
    · simp only [List.foldl_cons, List.filterMap_cons, if_neg h]
      rw [ih (acc ++ [formatAuthorName f (keptAuthorName f)])]
      simp [List.append_assoc]

/-- C1, counterexample: the facet extractors do let an exception escape when
a looked-up subfield is missing — a 260 field without subfield `a` makes
`get_address` fail, a 300 field without `a` makes `get_pages` fail, and a
100 field carrying an editor role but no `a` makes `get_editor` fail. -/
theorem c1_counterexample :
    get_address rec260noA = Except.error () ∧
    get_pages rec300noA = Except.error () ∧
    get_editor rec100editorNoA = Except.error () :=
  ⟨rfl, rfl, rfl⟩

/-- C1, amended: absence of the looked-up tag is handled without error —
with no 260/264 field `get_address` returns `None`, with no 300 field
`get_pages` returns `""`, and with no 100/400/600/700/800 field
`get_editor` returns `""`; but when a matching field is present and lacks
the accessed subfield, the ungated subfield access raises (see the
counterexample). -/
theorem c1_amended (r : Record)
    (h1 : r.get_fields ["260", "264"] = [])
    (h2 : r.get_fields ["300"] = [])
    (h3 : r.get_fields ["100", "400", "600", "700", "800"] = []) :
    get_address r = Except.ok none ∧
    get_pages r = Except.ok (some "") ∧
    get_editor r = Except.ok (some "") := by
  refine ⟨?_, ?_, ?_⟩
  · unfold get_address; rw [h1]
  · unfold get_pages; rw [h2]
  · unfold get_editor; rw [h3]; rfl

/-- C1, witness: the amended theorem at the empty record. -/
theorem c1_witness :
    get_address emptyRec = Except.ok none ∧
    get_pages emptyRec = Except.ok (some "") ∧
    get_editor emptyRec = Except.ok (some "") :=
  c1_amended emptyRec rfl rfl rfl

/-- C2, counterexample: the kept name `"a, b, c"` (two commas, indicator1
`"1"`) is not split in two at the first comma — that would give
`"a, b, c"` back — but at every comma, keeping only the first two parts:
the structured pass yields `"a, b"`. -/
theorem c2_counterexample :
    structuredAuthors [c2Field] = ["a, b"] ∧ structuredAuthors [c2Field] ≠ ["a, b, c"] :=
  ⟨by decide, by decide⟩

/-- C2, amended: a kept name containing a comma is split at every comma and
rebuilt from only its first two segments — the text before the first comma
and the text between the first and the second comma, each stripped — in
inverted order when the field's indicator1 equals `"0"` and in split order
otherwise; segments after the second comma are discarded. -/
theorem c2_amended (f : Field) (name : String) (h : name.data.contains ',' = true) :
    formatAuthorName f name =
      if f.indicator1 == "0" then
        pyStrip (segAfterComma name) ++ ", " ++ pyStrip (segBeforeComma name)
      else
        pyStrip (segBeforeComma name) ++ ", " ++ pyStrip (segAfterComma name) := by
  unfold formatAuthorName pySplitChar
  rw [splitCharAux_contains ',' name.data [] h]
  obtain ⟨b, t, hbt⟩ : ∃ b t, splitCharAux ',' []
      ((name.data.dropWhile (fun c => c != ',')).drop 1) = b :: t := by
    cases hsp : splitCharAux ',' [] ((name.data.dropWhile (fun c => c != ',')).drop 1) with
    | nil => exact absurd hsp (splitCharAux_ne_nil ',' _ [])
    | cons b t => exact ⟨b, t, rfl⟩
  rw [hbt]
  have hb : b = ((name.data.dropWhile (fun c => c != ',')).drop 1).takeWhile
      (fun c => c != ',') := by
    have hh := splitCharAux_headD ',' ((name.data.dropWhile (fun c => c != ',')).drop 1) []
    rw [hbt] at hh
    simpa using hh
  simp only [List.map_cons, List.reverse_nil, List.nil_append]
  rw [if_pos (by simp [Nat.lt_add_of_pos_left, Nat.succ_pos])]
  simp only [List.getD_cons_zero, List.getD_cons_succ]
  rw [hb]
  rfl

/-- C2, witness: the amended theorem at indicator1 `"0"` and name `"x, y"`. -/
theorem c2_witness :
    ("x, y".data.contains ',' = true) ∧
    formatAuthorName c2wField "x, y" =
      (if c2wField.indicator1 == "0" then
        pyStrip (segAfterComma "x, y") ++ ", " ++ pyStrip (segBeforeComma "x, y")
      else
        pyStrip (segBeforeComma "x, y") ++ ", " ++ pyStrip (segAfterComma "x, y")) :=
  ⟨by decide, c2_amended c2wField "x, y" (by decide)⟩

/-- C3: the freeform dedup loop of `get_author` equals the specified one —
a parsed name is appended exactly when its first whitespace-delimited
token, compared case-insensitively, matches the first token of no name
already accumulated — and on the record with structured author
`"Иванов, И."` and a freeform parse producing `"Иванов, И.П."` the final
author list holds exactly the one structured author. -/
theorem c3_dedup :
    (∀ authors parsed : List String, appendParsed authors parsed = specAppend authors parsed) ∧
    get_author c3Tokenize c3Rec = Except.ok (some "Иванов, И.") :=
  ⟨fun authors parsed => appendParsed_eq_spec parsed authors, rfl⟩

/-- C4, counterexample: fed the tokens `["Иванов", "И", "."]`, the token
machine of `parse_authors_nlp` does not return `["Иванов, И."]`. -/
theorem c4_counterexample : formatAuthors ["Иванов", "И", "."] ≠ ["Иванов, И."] := by
  decide

/-- C4, amended: fed `["Иванов", "И", "."]` the machine yields
`["Иванов", "И"]` — the token `"И"` has no trailing period, so it starts a
new surname and flushes `"Иванов"` alone, and the bare period token is
skipped without flushing: skipping a pure-punctuation token leaves the
machine state unchanged. -/
theorem c4_amended :
    formatAuthors ["Иванов", "И", "."] = ["Иванов", "И"] ∧
    ∀ st : NState, nstep st "," = st ∧ nstep st "." = st :=
  ⟨by decide, fun _ => ⟨rfl, rfl⟩⟩

/-- C5, counterexample: with the tokenizer failing and a record carrying
both a structured author and a responsibility statement, `get_author` fails
entirely even though the structured pass alone yields `["Иванов, И."]`. -/
theorem c5_counterexample :
    get_author failTokenize c5Rec = Except.error () ∧
    structuredAuthors (c5Rec.get_fields ["100", "400", "600", "700", "800"]) =
      ["Иванов, И."] :=
  ⟨rfl, by decide⟩

/-- C5, amended: when the Name Tokenizer dependency fails and the record's
245 field carries subfield `c`, `get_author` propagates the failure — the
whole author-list computation fails and the structured-field authors are
not returned. -/
theorem c5_amended (tokenize : String → Except Unit (List String)) (r : Record)
    (field : Field) (h245 : r.get "245" = some field) (hc : field.hasSub 'c' = true)
    (htok : tokenize (field.subV 'c') = Except.error ()) :
    get_author tokenize r = Except.error () := by
  have hstep : freeformStep tokenize r
      (structuredAuthors (r.get_fields ["100", "400", "600", "700", "800"])) =
      Except.error () := by
    unfold freeformStep parse_authors_nlp
    rw [h245]
    simp [hc, htok]
  unfold get_author
  rw [hstep]

/-- C5, witness: the amended theorem at a record holding only a 245 field
with subfield `c`, under the failing tokenizer. -/
theorem c5_witness : get_author failTokenize c5wRec = Except.error () :=
  c5_amended failTokenize c5wRec c5wField245 rfl rfl rfl

/-- C6: on a 520 field carrying both subfields `a = "Text"` and
`b = "More"`, `get_summary` returns `""` — its membership tests ask whether
the string `"a"` is an element of the list returned by `get_fields("520")`
and never hold — while `get_title` and `get_edition` return
`"Text More"` on identically shaped 245/250 fields as the claim states. -/
theorem c6_bug :
    get_summary c6RecSummary = Except.ok (some "") ∧
    get_title c6RecTitle = some "Text More" ∧
    get_edition c6RecEdition = some "Text More" :=
  ⟨rfl, by decide, by decide⟩

/-- C7: `get_volume` returns `""`, not `"XII"`, on
`300 $a = "[XII], 450 p."`, and `""`, not `"3"`, on
`300 $a = "Vol. 3, 200 p."`: `re.IGNORECASE` (value 2) is passed in the
`pos` slot of `Pattern.search`, so the case-sensitively compiled pattern is
searched from index 2 — the same search started at index 0 does capture
`"3"` from `"Vol. 3, 200 p."`. -/
theorem c7_bug :
    get_volume c7RecXII = some "" ∧
    get_volume c7RecVol3 = some "" ∧
    volumeSearch "Vol. 3, 200 p." 0 = some "3" :=
  ⟨by decide, by decide, by decide⟩

/-- C8: on a record with a 490 field whose indicator1 is `"0"` (subfields
`a = "AAA"`, `v = "5"`) and an 830 field (`a = "BBB"`, `v = "7"`),
`get_series` returns the concatenation `"AAA BBB"` instead of `"AAA"` alone
and `get_volume` returns `"5 7"` instead of `"5"`: the guard compares the
string `indicator1` with the integer `0`, which is always false in Python. -/
theorem c8_bug :
    get_series c8Rec = some "AAA BBB" ∧
    get_volume c8Rec = some "5 7" ∧
    pyEqStrInt "0" 0 = false :=
  ⟨by decide, by decide, rfl⟩

/-- C9: when every 020 field lacks subfield `a`, `get_isbn` returns the
empty string, and the values of the `z` subfields never affect
`get_isbn`'s output (the invalid-ISBN annotation is a no-op). -/
theorem c9_isbn :
    (∀ r : Record, (r.get_fields ["020"]).all (fun f => !(f.hasSub 'a')) = true →
      get_isbn r = "") ∧
    (∀ (g : String → String) (r : Record), get_isbn (mapZValues g r) = get_isbn r) := by
  constructor
  · intro r h
    exact isbn_foldl_noA _ "" h
  · intro g r
    unfold get_isbn
    rw [get_fields_mapZ, isbn_foldl_mapZ]

/-- C9, witness: both parts at a record whose 020 fields carry only `z`. -/
theorem c9_witness :
    get_isbn c9Rec = "" ∧ get_isbn (mapZValues pyStrip c9Rec) = get_isbn c9Rec :=
  ⟨c9_isbn.1 c9Rec (by decide), c9_isbn.2 pyStrip c9Rec⟩

/-- C10: the structured pass of `get_author` is a per-field `filterMap` —
every field with a kept name contributes its formatted name, duplicates
included, with no cross-field deduplication — and on a record whose 100 and
700 fields both name `"Иванов, И."` the output lists the author twice
(the first-token dedup applies only to names parsed from 245 `c`, absent
here: even a failing tokenizer leaves the result intact). -/
theorem c10_no_dedup :
    (∀ fields : List Field,
      structuredAuthors fields =
        fields.filterMap
          (fun f => if keptAuthorName f = "" then none
                    else some (formatAuthorName f (keptAuthorName f)))) ∧
    get_author failTokenize c10Rec = Except.ok (some "Иванов, И. and Иванов, И.") := by
  constructor
  · intro fields
    unfold structuredAuthors
    rw [structured_foldl_aux]
    simp
  · rfl

end Marc2bib
